import Mathlib

/-!
Verification of the friendly-time library (Go package friendlytime,
files time_parse.go and errors.go) against its natural-language
specification.

The Go code is shallowly embedded: strings are lists of characters,
instants (Go time.Time) are integer counts of nanoseconds since the Unix
epoch in UTC, fallible operations return Option or Except.  Go standard
library functions used by the source (strings.Index, strings.Split,
strconv.ParseInt, fmt.Sscanf with a %d verb, time.ParseDuration, the
fixed time.Parse layouts, and the proleptic-Gregorian calendar behind
time.Date and AddDate) are modelled here as executable Lean functions.
All keyword and pattern matching in the source is ASCII, so character
case functions are modelled on ASCII.
-/

namespace FriendlyTime

/-! ## Strings: Go strings as lists of characters -/

/-- Abbreviation used to write string literals as character lists. -/
def strL (s : String) : List Char := s.data

/-- Models strings.ToLower for ASCII characters (all pattern matching in
the source is ASCII). -/
def goToLowerChar (c : Char) : Char :=
  if 'A' ≤ c ∧ c ≤ 'Z' then Char.ofNat (c.toNat + 32) else c

/-- Models strings.ToLower on a Go string (ASCII case mapping). -/
def goToLower (s : List Char) : List Char := s.map goToLowerChar

/-- Models unicode.IsSpace on the ASCII white-space characters, used by
strings.TrimSpace and strings.Fields. -/
def isGoSpace (c : Char) : Bool :=
  c == ' ' || c == '\t' || c == '\n' || c == Char.ofNat 11 || c == Char.ofNat 12 || c == '\r'

/-- Models strings.TrimSpace: drop white space from both ends. -/
def goTrimSpace (s : List Char) : List Char :=
  ((s.dropWhile isGoSpace).reverse.dropWhile isGoSpace).reverse

/-- Models strings.HasPrefix. -/
def goStartsWith : List Char → List Char → Bool
  | _, [] => true
  | [], _ :: _ => false
  | a :: s, b :: p => a == b && goStartsWith s p

/-- Models strings.TrimPrefix: drop the leading pattern when present. -/
def goTrimLeading (s pat : List Char) : List Char :=
  if goStartsWith s pat then s.drop pat.length else s

/-- Models strings.Index: index of the first occurrence of pat in s,
none when absent (Go returns -1). -/
def goIndex : List Char → List Char → Option Nat
  | [], pat => if goStartsWith [] pat then some 0 else none
  | c :: t, pat =>
    if goStartsWith (c :: t) pat then some 0
    else (goIndex t pat).map (· + 1)

/-- Models strings.Contains. -/
def goContains (s pat : List Char) : Bool := (goIndex s pat).isSome

/-- Models strings.Split(s, "/"): split at every slash. -/
def goSplitSlash : List Char → List (List Char)
  | [] => [[]]
  | c :: t =>
    match goSplitSlash t, c == '/' with
    | r, true => [] :: r
    | [], false => [[c]]
    | h :: rs, false => (c :: h) :: rs

/-- Models strings.Replace(s, pat, rep, 1): replace the first occurrence. -/
def goReplaceOnce (s pat rep : List Char) : List Char :=
  match goIndex s pat with
  | none => s
  | some i => s.take i ++ rep ++ s.drop (i + pat.length)

/-- Models strings.Join(strings.Fields(s), ""): removing every
white-space character. -/
def goJoinFields (s : List Char) : List Char := s.filter (fun c => !(isGoSpace c))

/-- Models strings.ReplaceAll(s, " ", ""): removing every space. -/
def goRemoveSpaces (s : List Char) : List Char := s.filter (fun c => !(c == ' '))

/-! ## Integer scanning and formatting -/

/-- Accumulates the value of a run of decimal digits. -/
def digitsToNat : List Char → Nat → Nat
  | [], acc => acc
  | c :: t, acc => digitsToNat t (acc * 10 + (c.toNat - 48))

/-- Models strconv.ParseInt(s, 10, 64): an optional sign followed by one
or more decimal digits, rejecting values outside the int64 range. -/
def parseInt64 (s : List Char) : Option Int :=
  let p : Bool × List Char :=
    match s with
    | '+' :: t => (false, t)
    | '-' :: t => (true, t)
    | t => (false, t)
  let ds := p.2
  if ds = [] then none
  else if ds.all (fun c => c.isDigit) then
    let v : Int := (digitsToNat ds 0 : Int)
    let i := if p.1 then -v else v
    if -(2 ^ 63) ≤ i ∧ i ≤ 2 ^ 63 - 1 then some i else none
  else none

/-- Models fmt.Sscanf(s, "%d", &amount): skip blanks, then an optionally
signed decimal integer; the scan succeeds as soon as the integer is read,
regardless of any text that follows.  Values outside the int range make
the scan fail. -/
def sscanfInt (s : List Char) : Option Int :=
  let s1 := s.dropWhile (fun c => c == ' ' || c == '\t')
  let p : Bool × List Char :=
    match s1 with
    | '+' :: t => (false, t)
    | '-' :: t => (true, t)
    | t => (false, t)
  let ds := p.2.takeWhile (fun c => c.isDigit)
  if ds = [] then none
  else
    let v : Int := (digitsToNat ds 0 : Int)
    let i := if p.1 then -v else v
    if -(2 ^ 63) ≤ i ∧ i ≤ 2 ^ 63 - 1 then some i else none

/-- Decimal digits of a natural number, most significant first. -/
def natToChars (n : Nat) : List Char := Nat.toDigits 10 n

/-- Models fmt.Sprintf("%d", i) for an integer. -/
def intToChars (i : Int) : List Char :=
  if i < 0 then '-' :: natToChars i.natAbs else natToChars i.toNat

/-! ## Instants: Go time.Time, modelled in UTC

An instant is the count of nanoseconds since the Unix epoch.  Lean's
division and remainder on Int round toward negative infinity for the
positive divisors used here, matching the floor behaviour of Go's
calendar arithmetic. -/

/-- Nanoseconds per second. -/
def nsPerSec : Int := 1000000000

/-- Nanoseconds per minute. -/
def nsPerMin : Int := 60000000000

/-- Nanoseconds per hour. -/
def nsPerHour : Int := 3600000000000

/-- Nanoseconds per day. -/
def nsPerDay : Int := 86400000000000

/-- The zero time.Time value: January 1, year 1, 00:00:00 UTC, which is
62135596800 seconds before the Unix epoch.  time.Time.IsZero tests for
exactly this instant. -/
def goZeroTime : Int := -62135596800 * nsPerSec

/-- Models time.Unix(sec, nsec). -/
def goUnix (sec nsec : Int) : Int := sec * nsPerSec + nsec

/-- Models time.Time.Unix(): whole seconds since the epoch (floor). -/
def unixSec (t : Int) : Int := t / nsPerSec

/-- Completed days since the epoch (floor). -/
def epochDay (t : Int) : Int := t / nsPerDay

/-- Models time.Time.Weekday() in UTC: the epoch day 1970-01-01 was a
Thursday (ordinal 4), Sunday is 0. -/
def goWeekday (t : Int) : Int := (epochDay t + 4) % 7

/-! ### The proleptic Gregorian calendar

These functions convert between epoch-day numbers and civil (year,
month, day) triples; they model the calendar arithmetic inside Go's
time.Date and time.Time.AddDate.  The conversion splits a day number
into a 400-year era, the day-of-era, the year-of-era, the day-of-year
and the shifted month, following the standard Gregorian algorithms. -/

/-- Era (400-year cycle) of an epoch-day number, relative to 0000-03-01. -/
def cdEra (z : Int) : Int := (z + 719468) / 146097

/-- Day within the 400-year era, in [0, 146096]. -/
def cdDoe (z : Int) : Int := z + 719468 - cdEra z * 146097

/-- Year-of-era in [0, 399] of a day-of-era. -/
def cdYoe (z : Int) : Int :=
  (cdDoe z - cdDoe z / 1460 + cdDoe z / 36524 - cdDoe z / 146096) / 365

/-- Day-of-year (March-based) in [0, 365]. -/
def cdDoy (z : Int) : Int :=
  cdDoe z - (365 * cdYoe z + cdYoe z / 4 - cdYoe z / 100)

/-- Shifted month in [0, 11] (0 = March). -/
def cdMp (z : Int) : Int := (5 * cdDoy z + 2) / 153

/-- Civil month in [1, 12] of an epoch-day number. -/
def cdM (z : Int) : Int := if cdMp z < 10 then cdMp z + 3 else cdMp z - 9

/-- Civil day-of-month in [1, 31] of an epoch-day number. -/
def cdD (z : Int) : Int := cdDoy z - (153 * cdMp z + 2) / 5 + 1

/-- Civil year of an epoch-day number. -/
def cdY (z : Int) : Int :=
  if cdM z ≤ 2 then cdYoe z + cdEra z * 400 + 1 else cdYoe z + cdEra z * 400

/-- Epoch-day number to civil (year, month, day). -/
def civilFromDays (z : Int) : Int × Int × Int := (cdY z, cdM z, cdD z)

/-- March-based year used when converting a civil date to days. -/
def dcY (y0 m : Int) : Int := if m ≤ 2 then y0 - 1 else y0

/-- Era of a civil date. -/
def dcEra (y0 m : Int) : Int := dcY y0 m / 400

/-- Year-of-era of a civil date. -/
def dcYoe (y0 m : Int) : Int := dcY y0 m - dcEra y0 m * 400

/-- Shifted month of a civil month. -/
def dcMp (m : Int) : Int := if 2 < m then m - 3 else m + 9

/-- March-based day-of-year of a civil month and day. -/
def dcDoy (m d : Int) : Int := (153 * dcMp m + 2) / 5 + d - 1

/-- Civil (year, month, day) to epoch-day number, for month in [1, 12];
the day may lie outside [1, 31] and is carried linearly, as Go's
time.Date does. -/
def daysFromCivil (y0 m d : Int) : Int :=
  dcEra y0 m * 146097 +
    (dcYoe y0 m * 365 + dcYoe y0 m / 4 - dcYoe y0 m / 100 + dcDoy m d) - 719468

/-- Epoch-day number of a civil date whose month may lie outside
[1, 12]; the month is first normalized by carrying into the year,
exactly as Go's time.Date normalizes its arguments. -/
def goDateDays (y m d : Int) : Int :=
  daysFromCivil (y + (m - 1) / 12) ((m - 1) % 12 + 1) d

/-- Models time.Date(y, m, d, hh, mm, ss, ns, time.UTC); out-of-range
components are normalized by carrying, which this linear form performs. -/
def goDate (y m d hh mm ss ns : Int) : Int :=
  goDateDays y m d * nsPerDay + hh * nsPerHour + mm * nsPerMin + ss * nsPerSec + ns

/-- Models time.Time.AddDate(years, months, days) in UTC: take the civil
date of t, add the deltas, rebuild with t's time of day. -/
def goAddDate (t : Int) (years months days : Int) : Int :=
  goDate ((civilFromDays (epochDay t)).1 + years)
    ((civilFromDays (epochDay t)).2.1 + months)
    ((civilFromDays (epochDay t)).2.2 + days) 0 0 0 (t % nsPerDay)

/-! ### Correctness of the calendar conversion

The conversion from epoch days to a civil triple and back is the
identity.  The delicate step is that the year-of-era formula really
yields the year containing the given day; it is settled through the
cumulative-days function on year-of-era numbers, finite checks of the
400 year anchors, and monotonicity. -/

/-- Days-of-era that precede year-of-era y (natural-number version). -/
def gN (y : Nat) : Nat := 365 * y + y / 4 - y / 100

/-- Leap-corrected day count used by the year-of-era formula. -/
def sN (doe : Nat) : Nat := doe - doe / 1460 + doe / 36524 - doe / 146096

/-- Year-of-era of a day-of-era (natural-number version). -/
def fN (doe : Nat) : Nat := sN doe / 365

theorem cdDoe_bounds (z : Int) : 0 ≤ cdDoe z ∧ cdDoe z < 146097 := by
  unfold cdDoe cdEra; omega

theorem cdYoe_bounds (z : Int) : 0 ≤ cdYoe z ∧ cdYoe z ≤ 399 := by
  have h := cdDoe_bounds z
  unfold cdYoe; omega

theorem sN_step (d : Nat) : sN d ≤ sN (d + 1) := by
  unfold sN; omega

theorem sN_mono : ∀ {a b : Nat}, a ≤ b → sN a ≤ sN b := by
  intro a b h
  induction b with
  | zero =>
    have ha : a = 0 := by omega
    exact ha ▸ Nat.le_refl _
  | succ n ih =>
    by_cases h2 : a ≤ n
    · exact le_trans (ih h2) (sN_step n)
    · have ha : a = n + 1 := by omega
      exact ha ▸ Nat.le_refl _

theorem fN_mono {a b : Nat} (h : a ≤ b) : fN a ≤ fN b :=
  Nat.div_le_div_right (sN_mono h)

set_option maxRecDepth 4000 in
theorem fN_first_day : ∀ y : Nat, y < 400 → fN (gN y) = y := by decide

set_option maxRecDepth 4000 in
theorem fN_last_day : ∀ y : Nat, y < 400 → fN (gN (y + 1) - 1) = y := by decide

theorem fN_era_end : fN 146096 = 399 := by decide

theorem gN_cover : ∀ n : Nat, n < 146096 → ∃ y : Nat, y < 400 ∧ gN y ≤ n ∧ n < gN (y + 1) := by
  intro n
  induction n with
  | zero =>
    intro _
    exact ⟨0, by decide, by decide, by decide⟩
  | succ m ih =>
    intro h
    obtain ⟨y, hy, h1, h2⟩ := ih (Nat.lt_of_succ_lt h)
    by_cases hc : m + 1 < gN (y + 1)
    · exact ⟨y, hy, Nat.le_succ_of_le h1, hc⟩
    · have he : m + 1 = gN (y + 1) := by omega
      have hy4 : y + 1 < 400 := by
        by_contra hcon
        have h399 : y = 399 := by omega
        subst h399
        have hg : gN (399 + 1) = 146096 := by decide
        omega
      refine ⟨y + 1, hy4, by omega, ?_⟩
      have hstep : gN (y + 1) + 365 ≤ gN (y + 1 + 1) := by unfold gN; omega
      omega

theorem fN_core : ∀ n : Nat, n ≤ 146096 → gN (fN n) ≤ n ∧ n ≤ gN (fN n) + 365 ∧ fN n ≤ 399 := by
  intro n hn
  by_cases hl : n = 146096
  · subst hl
    rw [fN_era_end]
    refine ⟨by decide, by decide, by decide⟩
  · obtain ⟨y, hy, h1, h2⟩ := gN_cover n (by omega)
    have hfl : y ≤ fN n := fN_first_day y hy ▸ fN_mono h1
    have hfu : fN n ≤ y := by
      have hle : n ≤ gN (y + 1) - 1 := by omega
      have := fN_mono hle
      rwa [fN_last_day y hy] at this
    have hfy : fN n = y := Nat.le_antisymm hfu hfl
    rw [hfy]
    refine ⟨h1, ?_, by omega⟩
    have : gN (y + 1) ≤ gN y + 366 := by unfold gN; omega
    omega

theorem cdYoe_eq_fN (z : Int) : cdYoe z = (fN (cdDoe z).toNat : Int) := by
  have h := cdDoe_bounds z
  unfold cdYoe fN sN
  omega

theorem cdDoy_bounds (z : Int) : 0 ≤ cdDoy z ∧ cdDoy z ≤ 365 := by
  have hb := cdDoe_bounds z
  have hy := cdYoe_eq_fN z
  have hc := fN_core (cdDoe z).toNat (by omega)
  unfold gN at hc
  unfold cdDoy
  rw [hy]
  omega

theorem cdMp_bounds (z : Int) : 0 ≤ cdMp z ∧ cdMp z ≤ 11 := by
  have h := cdDoy_bounds z
  unfold cdMp; omega

theorem cdM_bounds (z : Int) : 1 ≤ cdM z ∧ cdM z ≤ 12 := by
  have h := cdMp_bounds z
  unfold cdM; split_ifs <;> omega

theorem goDateDays_norm (y m d : Int) (h1 : 1 ≤ m) (h2 : m ≤ 12) :
    goDateDays y m d = daysFromCivil y m d := by
  unfold goDateDays
  have e1 : (m - 1) / 12 = 0 := by omega
  have e2 : (m - 1) % 12 = m - 1 := by omega
  rw [e1, e2]
  norm_num

theorem civil_roundtrip (z : Int) : goDateDays (cdY z) (cdM z) (cdD z) = z := by
  have hyoe := cdYoe_bounds z
  have hdoy := cdDoy_bounds z
  have hmp := cdMp_bounds z
  have hdoe := cdDoe_bounds z
  rw [goDateDays_norm _ _ _ (cdM_bounds z).1 (cdM_bounds z).2]
  have hdcY : dcY (cdY z) (cdM z) = cdYoe z + cdEra z * 400 := by
    unfold dcY cdY cdM
    split_ifs <;> omega
  have hera : dcEra (cdY z) (cdM z) = cdEra z := by
    unfold dcEra; rw [hdcY]; omega
  have hyoe2 : dcYoe (cdY z) (cdM z) = cdYoe z := by
    unfold dcYoe; rw [hdcY, hera]; ring
  have hmp2 : dcMp (cdM z) = cdMp z := by
    unfold dcMp cdM; split_ifs <;> omega
  have hdoy2 : dcDoy (cdM z) (cdD z) = cdDoy z := by
    unfold dcDoy; rw [hmp2]; unfold cdD; ring
  unfold daysFromCivil
  rw [hera, hyoe2, hdoy2]
  have hdoy_def : cdDoy z = cdDoe z - (365 * cdYoe z + cdYoe z / 4 - cdYoe z / 100) := rfl
  have hdoe_def : cdDoe z = z + 719468 - cdEra z * 146097 := rfl
  omega

theorem goDateDays_day_add (y m d k : Int) :
    goDateDays y m (d + k) = goDateDays y m d + k := by
  unfold goDateDays daysFromCivil dcDoy
  ring

theorem goAddDate_days (t : Int) (k : Int) :
    goAddDate t 0 0 k = t + k * nsPerDay := by
  unfold goAddDate goDate civilFromDays
  simp only [add_zero, zero_mul]
  rw [goDateDays_day_add, civil_roundtrip]
  simp only [epochDay, nsPerDay]
  omega

theorem getMidnight_floor (t : Int) :
    goDate (civilFromDays (epochDay t)).1 (civilFromDays (epochDay t)).2.1
      (civilFromDays (epochDay t)).2.2 0 0 0 0 = epochDay t * nsPerDay := by
  unfold goDate civilFromDays
  simp only [add_zero, zero_mul]
  rw [civil_roundtrip]

/-! ## Go time.ParseDuration -/

/-- Nanoseconds per duration unit: Go's unitMap in time.ParseDuration. -/
def durUnitNs : List Char → Option Nat
  | ['n', 's'] => some 1
  | ['u', 's'] => some 1000
  | ['µ', 's'] => some 1000
  | ['μ', 's'] => some 1000
  | ['m', 's'] => some 1000000
  | ['s'] => some 1000000000
  | ['m'] => some 60000000000
  | ['h'] => some 3600000000000
  | _ => none

/-- Models leadingInt inside time.ParseDuration: consume leading decimal
digits into an accumulator, failing on overflow past 2^63. -/
def durLeadingInt : List Char → Nat → Option (Nat × List Char)
  | [], x => some (x, [])
  | c :: t, x =>
    if c.isDigit then
      if x > 2 ^ 63 / 10 then none
      else
        let y := x * 10 + (c.toNat - 48)
        if y > 2 ^ 63 then none
        else durLeadingInt t y
    else some (x, c :: t)

/-- Models leadingFraction inside time.ParseDuration: consume fraction
digits with their power-of-ten scale, silently skipping digits once the
accumulator would overflow. -/
def durLeadingFraction : List Char → Nat → Nat → Bool → Nat × Nat × List Char
  | [], f, scale, _ => (f, scale, [])
  | c :: t, f, scale, overflow =>
    if c.isDigit then
      if overflow then durLeadingFraction t f scale overflow
      else if f > (2 ^ 63 - 1) / 10 then durLeadingFraction t f scale true
      else
        let y := f * 10 + (c.toNat - 48)
        if y > 2 ^ 63 then durLeadingFraction t f scale true
        else durLeadingFraction t y (scale * 10) false
    else (f, scale, c :: t)

/-- The optional fraction part of a duration component: the fraction
value, its scale, the rest of the input and whether digits were read. -/
def durFracPart (s1 : List Char) : Nat × Nat × List Char × Bool :=
  match s1 with
  | '.' :: t =>
    match durLeadingFraction t 0 1 false with
    | (f, scale, s2) => (f, scale, s2, decide (s2.length ≠ t.length))
  | _ => (0, 1, s1, false)

/-- The component loop of time.ParseDuration, accumulating nanoseconds.
Fuel is bounded by the input length; every component consumes at least
its unit character, so the fuel never runs out on the initial call.
Go adds the fraction through float64 arithmetic; the model uses the
exact rational value, which agrees wherever the float computation is
exact. -/
def durLoop : Nat → List Char → Nat → Option Nat
  | _, [], d => some d
  | 0, _ :: _, _ => none
  | fuel + 1, c0 :: rest, d =>
    if !(c0 == '.' || c0.isDigit) then none
    else
      match durLeadingInt (c0 :: rest) 0 with
      | none => none
      | some (v, s1) =>
        let pre : Bool := s1.length != (c0 :: rest).length
        match durFracPart s1 with
        | (f, scale, s2, post) =>
          if !pre && !post then none
          else
            let u := s2.takeWhile (fun c => !(c == '.' || c.isDigit))
            let s3 := s2.drop u.length
            if u = [] then none
            else
              match durUnitNs u with
              | none => none
              | some unit =>
                if v > 2 ^ 63 / unit then none
                else
                  let v2 := if f > 0 then v * unit + f * unit / scale else v * unit
                  if v2 > 2 ^ 63 then none
                  else if d + v2 > 2 ^ 63 then none
                  else durLoop fuel s3 (d + v2)

/-- Models time.ParseDuration: optional sign, then one or more
number-unit components; none models the error return. -/
def goParseDuration (s0 : List Char) : Option Int :=
  let p : Bool × List Char :=
    match s0 with
    | '-' :: t => (true, t)
    | '+' :: t => (false, t)
    | t => (false, t)
  if p.2 = ['0'] then some 0
  else if p.2 = [] then none
  else
    match durLoop p.2.length p.2 0 with
    | none => none
    | some d =>
      if p.1 then some (-(d : Int))
      else if d > 2 ^ 63 - 1 then none
      else some (d : Int)

/-! ## The fixed time.Parse layouts used by ParseTime -/

/-- Exactly two digits of a zero-padded layout element. -/
def getnum2 : List Char → Option (Int × List Char)
  | a :: b :: rest =>
    if a.isDigit && b.isDigit then
      some (((a.toNat - 48) * 10 + (b.toNat - 48) : Int), rest)
    else none
  | _ => none

/-- One or two digits of an unpadded layout element. -/
def getnum12 : List Char → Option (Int × List Char)
  | [] => none
  | [a] => if a.isDigit then some ((a.toNat - 48 : Int), []) else none
  | a :: b :: rest =>
    if a.isDigit then
      if b.isDigit then some (((a.toNat - 48) * 10 + (b.toNat - 48) : Int), rest)
      else some ((a.toNat - 48 : Int), b :: rest)
    else none

/-- Exactly four digits of a long-year layout element. -/
def getnum4 : List Char → Option (Int × List Char)
  | a :: b :: c :: d :: rest =>
    if a.isDigit && b.isDigit && c.isDigit && d.isDigit then
      some ((((a.toNat - 48) * 1000 + (b.toNat - 48) * 100 +
        (c.toNat - 48) * 10 + (d.toNat - 48) : Nat) : Int), rest)
    else none
  | _ => none

/-- Models Go's two-digit year rule: 69..99 map to 19xx, 00..68 to 20xx. -/
def y2k (yy : Int) : Int := if 69 ≤ yy then yy + 1900 else yy + 2000

/-- Models isLeap in Go's time package. -/
def goIsLeap (y : Int) : Bool := y % 4 == 0 && (y % 100 != 0 || y % 400 == 0)

/-- Models daysIn in Go's time package. -/
def goDaysIn (m y : Int) : Int :=
  if m == 2 then (if goIsLeap y then 29 else 28)
  else if m == 4 || m == 6 || m == 9 || m == 11 then 30
  else 31

/-- Shared range validation and instant construction of time.Parse for
the date layouts (no zone in the layout, so the result is UTC). -/
def mkDate (y m d hh mm ss : Int) : Option Int :=
  if 1 ≤ m ∧ m ≤ 12 ∧ 1 ≤ d ∧ d ≤ goDaysIn m y ∧ hh < 24 ∧ mm < 60 ∧ ss < 60 then
    some (goDate y m d hh mm ss 0)
  else none

/-- Models time.Parse("15:04", s): unpadded hour, colon, two-digit
minute, whole input consumed, ranges checked. -/
def parseClock (s : List Char) : Option (Int × Int) :=
  match getnum12 s with
  | none => none
  | some (hh, s1) =>
    match s1 with
    | ':' :: s2 =>
      match getnum2 s2 with
      | none => none
      | some (mm, s3) =>
        if s3 = [] ∧ hh < 24 ∧ mm < 60 then some (hh, mm) else none
    | _ => none

/-- The "15:04:05" tail of the date-time layouts. -/
def parseHMS (s : List Char) : Option (Int × Int × Int × List Char) :=
  match getnum12 s with
  | some (hh, ':' :: s1) =>
    match getnum2 s1 with
    | some (mm, ':' :: s2) =>
      match getnum2 s2 with
      | some (ss, s3) => some (hh, mm, ss, s3)
      | none => none
    | _ => none
  | _ => none

/-- Models time.Parse("06-01-02", s). -/
def parseDateYY (s : List Char) : Option Int :=
  match getnum2 s with
  | some (yy, '-' :: s1) =>
    match getnum2 s1 with
    | some (mm, '-' :: s2) =>
      match getnum2 s2 with
      | some (dd, []) => mkDate (y2k yy) mm dd 0 0 0
      | _ => none
    | _ => none
  | _ => none

/-- Models time.Parse("2006-01-02", s). -/
def parseDateYYYY (s : List Char) : Option Int :=
  match getnum4 s with
  | some (yyyy, '-' :: s1) =>
    match getnum2 s1 with
    | some (mm, '-' :: s2) =>
      match getnum2 s2 with
      | some (dd, []) => mkDate yyyy mm dd 0 0 0
      | _ => none
    | _ => none
  | _ => none

/-- Models time.Parse("06-01-02 15:04:05", s). -/
def parseDateTimeYY (s : List Char) : Option Int :=
  match getnum2 s with
  | some (yy, '-' :: s1) =>
    match getnum2 s1 with
    | some (mm, '-' :: s2) =>
      match getnum2 s2 with
      | some (dd, ' ' :: s3) =>
        match parseHMS s3 with
        | some (hh, mi, ss, []) => mkDate (y2k yy) mm dd hh mi ss
        | _ => none
      | _ => none
    | _ => none
  | _ => none

/-- Models time.Parse("2006-01-02 15:04:05", s). -/
def parseDateTimeYYYY (s : List Char) : Option Int :=
  match getnum4 s with
  | some (yyyy, '-' :: s1) =>
    match getnum2 s1 with
    | some (mm, '-' :: s2) =>
      match getnum2 s2 with
      | some (dd, ' ' :: s3) =>
        match parseHMS s3 with
        | some (hh, mi, ss, []) => mkDate yyyy mm dd hh mi ss
        | _ => none
      | _ => none
    | _ => none
  | _ => none

/-- Three-letter day abbreviations (lower case), for case-insensitive
name lookup in time.Parse. -/
def dayAbbrevs : List (List Char) :=
  [strL "sun", strL "mon", strL "tue", strL "wed", strL "thu", strL "fri", strL "sat"]

/-- Three-letter month abbreviations (lower case). -/
def monthAbbrevs : List (List Char) :=
  [strL "jan", strL "feb", strL "mar", strL "apr", strL "may", strL "jun",
   strL "jul", strL "aug", strL "sep", strL "oct", strL "nov", strL "dec"]

/-- Index of a key in a list of names. -/
def findName : List (List Char) → List Char → Nat → Option Nat
  | [], _, _ => none
  | n :: rest, key, i => if n = key then some i else findName rest key (i + 1)

/-- Models time.Parse("Mon, 02 Jan 2006 15:04:05", s).  Go does not
check that the day name agrees with the date. -/
def parseRFC822 (s : List Char) : Option Int :=
  match s with
  | a :: b :: c :: ',' :: ' ' :: s1 =>
    if (findName dayAbbrevs (goToLower [a, b, c]) 0).isSome then
      match getnum2 s1 with
      | some (dd, ' ' :: s2) =>
        match s2 with
        | m1 :: m2 :: m3 :: ' ' :: s3 =>
          match findName monthAbbrevs (goToLower [m1, m2, m3]) 0 with
          | none => none
          | some mi =>
            match getnum4 s3 with
            | some (yyyy, ' ' :: s4) =>
              match parseHMS s4 with
              | some (hh, mm, ss, []) => mkDate yyyy ((mi : Int) + 1) dd hh mm ss
              | _ => none
            | _ => none
        | _ => none
      | _ => none
    else none
  | _ => none

/-! ## The package under verification: errors.go and time_parse.go -/

/-- The error values of errors.go, together with the wrapped forms that
ParseTime and ParseTimeRange build with fmt.Errorf: invalidStartTime and
invalidEndTime wrap an inner cause, invalidWeekday records the offending
name, and durationErr stands for the error value that time.ParseDuration
returned for the recorded input. -/
inductive GoErr where
  | invalidTimeFormat
  | invalidTimeRange
  | invalidStartTime (inner : GoErr)
  | invalidEndTime (inner : GoErr)
  | endBeforeStart
  | invalidWeekday (name : List Char)
  | durationErr (s : List Char)
  deriving DecidableEq

/-- Embeds the reservedKeywords table of time_parse.go. -/
def reservedKeywords : List (List Char) :=
  [strL "sunday", strL "monday", strL "tuesday", strL "wednesday", strL "thursday",
   strL "friday", strL "saturday",
   strL "yesterday", strL "last week", strL "last month", strL "last year"]

/-- Embeds the timeUnitsToHours table of time_parse.go. -/
def timeUnitsToHours : List (List (List Char) × Int) :=
  [([strL "years", strL "year"], 8760),
   ([strL "months", strL "month"], 720),
   ([strL "days", strL "day"], 24)]

/-- Embeds the simpleTimeUnits table of time_parse.go. -/
def simpleTimeUnits : List (List (List Char) × List Char) :=
  [([strL "seconds", strL "second", strL "sec"], strL "s"),
   ([strL "minutes", strL "minute", strL "min"], strL "m"),
   ([strL "hours", strL "hour"], strL "h")]

/-- Embeds isLetter (time_parse.go). -/
def isLetter (c : Char) : Bool :=
  decide (('a' ≤ c ∧ c ≤ 'z') ∨ ('A' ≤ c ∧ c ≤ 'Z'))

/-- The two's-complement int64 denoted by an unbounded integer: Go's
int multiplication wraps around, so the products the conversion helpers
compute are reduced through this before printing. -/
def wrap64 (x : Int) : Int := (x + 2 ^ 63) % 2 ^ 64 - 2 ^ 63

/-- One placement attempt of tryConvertUnit (time_parse.go): locate the
pattern, scan the integer before it with Sscanf, check the letter
boundary after it, and rebuild the string as hours plus the suffix. -/
def tryUnitAt (timeStr pat : List Char) (toHours : Int) : Option (List Char) :=
  match goIndex timeStr pat with
  | none => none
  | some idx =>
    if 0 < idx then
      match sscanfInt (timeStr.take idx) with
      | none => none
      | some amount =>
        if 0 ≤ amount then
          let endIdx := idx + pat.length
          if timeStr.length ≤ endIdx ∨ isLetter (timeStr.getD endIdx '0') = false then
            some (intToChars (wrap64 (amount * toHours)) ++ strL "h" ++ timeStr.drop endIdx)
          else none
        else none
    else none

/-- Embeds tryConvertUnit (time_parse.go): the "N pat" placement is
tried before the "Npat" placement. -/
def tryConvertUnit (timeStr pat : List Char) (toHours : Int) : Option (List Char) :=
  match tryUnitAt timeStr (' ' :: pat) toHours with
  | some r => some r
  | none => tryUnitAt timeStr pat toHours

/-- One placement attempt of tryConvertSimpleUnit (time_parse.go). -/
def trySimpleAt (timeStr pat toUnit : List Char) : Option (List Char) :=
  match goIndex timeStr pat with
  | none => none
  | some idx =>
    if 0 < idx then
      match sscanfInt (timeStr.take idx) with
      | none => none
      | some amount =>
        if 0 ≤ amount then
          let endIdx := idx + pat.length
          if timeStr.length ≤ endIdx ∨ isLetter (timeStr.getD endIdx '0') = false then
            some (intToChars amount ++ toUnit ++ timeStr.drop endIdx)
          else none
        else none
    else none

/-- Embeds tryConvertSimpleUnit (time_parse.go). -/
def tryConvertSimpleUnit (timeStr pat toUnit : List Char) : Option (List Char) :=
  match trySimpleAt timeStr (' ' :: pat) toUnit with
  | some r => some r
  | none => trySimpleAt timeStr pat toUnit

/-- Embeds tryConvertShortForm (time_parse.go); the empty list models the
empty-string sentinel that signals no conversion.  Sscanf with format
"%d" plus the short form scans the leading integer; the literal after
the integer only affects the discarded error, not the item count. -/
def tryConvertShortForm (timeStr shortForm : List Char) (toHours : Int)
    (longForm : List Char) : List Char :=
  if !goContains timeStr shortForm || goContains timeStr longForm then []
  else
    match sscanfInt timeStr with
    | none => []
    | some amount =>
      if 0 ≤ amount then
        let target := intToChars amount ++ shortForm
        match goIndex timeStr target with
        | none => []
        | some idx =>
          let endIdx := idx + target.length
          if timeStr.length ≤ endIdx ∨ isLetter (timeStr.getD endIdx '0') = false then
            goReplaceOnce timeStr target (intToChars (wrap64 (amount * toHours)) ++ strL "h")
          else []
      else []

/-- First conversion that succeeds among a pattern group. -/
def tryPatterns (timeStr : List Char) : List (List Char) → Int → Option (List Char)
  | [], _ => none
  | p :: rest, toHours =>
    match tryConvertUnit timeStr p toHours with
    | some r => some r
    | none => tryPatterns timeStr rest toHours

/-- First conversion that succeeds among the hour-unit groups. -/
def tryUnitGroups (timeStr : List Char) : List (List (List Char) × Int) → Option (List Char)
  | [] => none
  | (pats, toHours) :: rest =>
    match tryPatterns timeStr pats toHours with
    | some r => some r
    | none => tryUnitGroups timeStr rest

/-- First conversion that succeeds among a simple-unit pattern group. -/
def trySimplePatterns (timeStr : List Char) : List (List Char) → List Char → Option (List Char)
  | [], _ => none
  | p :: rest, toUnit =>
    match tryConvertSimpleUnit timeStr p toUnit with
    | some r => some r
    | none => trySimplePatterns timeStr rest toUnit

/-- First conversion that succeeds among the simple-unit groups. -/
def trySimpleGroups (timeStr : List Char) : List (List (List Char) × List Char) → Option (List Char)
  | [] => none
  | (pats, toUnit) :: rest =>
    match trySimplePatterns timeStr pats toUnit with
    | some r => some r
    | none => trySimpleGroups timeStr rest

/-- Embeds convertCustomUnits (time_parse.go).  The Go function also
returns an error value that is nil on every return path, so the error
component is omitted here. -/
def convertCustomUnits (timeStr : List Char) : List Char :=
  if reservedKeywords.any (fun k => goContains (goToLower timeStr) k) then timeStr
  else
    match tryUnitGroups timeStr timeUnitsToHours with
    | some r => r
    | none =>
      let d24 := tryConvertShortForm timeStr (strL "d") 24 (strL "day")
      if d24 ≠ [] then d24
      else
        let y8760 := tryConvertShortForm timeStr (strL "y") 8760 (strL "year")
        if y8760 ≠ [] then y8760
        else
          match trySimpleGroups timeStr simpleTimeUnits with
          | some r => r
          | none => timeStr

/-- Embeds parseWeekday (time_parse.go). -/
def parseWeekday (weekdayStr : List Char) : Except GoErr Int :=
  if weekdayStr = strL "sunday" then .ok 0
  else if weekdayStr = strL "monday" then .ok 1
  else if weekdayStr = strL "tuesday" then .ok 2
  else if weekdayStr = strL "wednesday" then .ok 3
  else if weekdayStr = strL "thursday" then .ok 4
  else if weekdayStr = strL "friday" then .ok 5
  else if weekdayStr = strL "saturday" then .ok 6
  else .error (.invalidWeekday weekdayStr)

/-- Embeds getMidnight (time_parse.go): time.Date(t.Year(), t.Month(),
t.Day(), 0, 0, 0, 0, t.Location()) for a UTC instant. -/
def getMidnight (t : Int) : Int :=
  goDate (civilFromDays (epochDay t)).1 (civilFromDays (epochDay t)).2.1
    (civilFromDays (epochDay t)).2.2 0 0 0 0

/-- getMidnight truncates an instant to the start of its UTC day. -/
theorem getMidnight_eq (t : Int) : getMidnight t = epochDay t * nsPerDay :=
  getMidnight_floor t

/-- Embeds parseLastWeekday (time_parse.go). -/
def parseLastWeekday (durationStr : List Char) (now : Int) : Except GoErr Int :=
  let weekdayStr := goTrimLeading durationStr (strL "last ")
  match parseWeekday weekdayStr with
  | .error e => .error e
  | .ok weekday =>
    let daysAgo := goWeekday now - weekday
    let daysAgo2 := if daysAgo ≤ 0 then daysAgo + 7 else daysAgo
    .ok (getMidnight (goAddDate now 0 0 (-daysAgo2)))

/-- Embeds parseRelativeTime (time_parse.go).  The error that Go's
time.ParseDuration returns is modelled by the durationErr constructor
carrying the string handed to it. -/
def parseRelativeTime (durationStr : List Char) (now startTime : Int)
    (isPositive : Bool) : Except GoErr Int :=
  let d := goToLower (goTrimSpace durationStr)
  if d = strL "yesterday" then .ok (getMidnight (goAddDate now 0 0 (-1)))
  else if d = strL "last week" then .ok (getMidnight (goAddDate now 0 0 (-7)))
  else if d = strL "last month" then .ok (getMidnight (goAddDate now 0 (-1) 0))
  else if d = strL "last year" then .ok (getMidnight (goAddDate now (-1) 0 0))
  else if goStartsWith d (strL "last ") then parseLastWeekday d now
  else
    match goParseDuration (goRemoveSpaces d) with
    | none => .error (.durationErr (goRemoveSpaces d))
    | some dur =>
      if isPositive then
        if startTime = goZeroTime then .ok (now + dur) else .ok (startTime + dur)
      else .ok (now - dur)

/-- Embeds parseUnixTimestamp (time_parse.go); the Go function returns a
nil error on every path, so the error component is omitted.  Division
and remainder are Go's truncating int64 operations. -/
def parseUnixTimestamp (unixTime : Int) : Int :=
  if unixTime > 9999999999 then
    goUnix (Int.tdiv unixTime 1000) (Int.tmod unixTime 1000 * 1000000)
  else goUnix unixTime 0

/-- Embeds ParseTime (time_parse.go). -/
def ParseTime (timeStr0 : List Char) (now startTime : Int) : Except GoErr Int :=
  if timeStr0 = [] then
    if startTime = goZeroTime then .ok startTime else .ok now
  else
    let timeStr := goTrimSpace timeStr0
    match parseInt64 timeStr with
    | some unixTime => .ok (parseUnixTimestamp unixTime)
    | none =>
      let lowerTimeStr := goToLower timeStr
      if goStartsWith lowerTimeStr (strL "last ") || goStartsWith lowerTimeStr (strL "yesterday") then
        parseRelativeTime lowerTimeStr now startTime false
      else if goContains timeStr (strL " ago") then
        let cleanStr := goReplaceOnce timeStr (strL " ago") []
        let cleanStr2 := convertCustomUnits cleanStr
        let cleanStr3 := goJoinFields cleanStr2
        parseRelativeTime cleanStr3 now startTime false
      else
        let timeStr2 := convertCustomUnits timeStr
        if goStartsWith timeStr2 (strL "+") then
          parseRelativeTime (timeStr2.drop 1) now startTime true
        else if goStartsWith timeStr2 (strL "-") then
          parseRelativeTime (timeStr2.drop 1) now startTime false
        else
          match goParseDuration timeStr2 with
          | some duration => .ok (now - duration)
          | none =>
            match parseClock timeStr2 with
            | some (hh, mm) =>
              .ok (goDate (civilFromDays (epochDay now)).1 (civilFromDays (epochDay now)).2.1
                    (civilFromDays (epochDay now)).2.2 hh mm 0 0)
            | none =>
              match parseDateYY timeStr2 with
              | some t => .ok t
              | none =>
                match parseDateYYYY timeStr2 with
                | some t => .ok t
                | none =>
                  match parseDateTimeYY timeStr2 with
                  | some t => .ok t
                  | none =>
                    match parseDateTimeYYYY timeStr2 with
                    | some t => .ok t
                    | none =>
                      match parseRFC822 timeStr2 with
                      | some t => .ok t
                      | none => .error .invalidTimeFormat

/-- The two resolved instants of ParseTimeRange (time_parse.go) before
the shared ordering validation: the slash branch splits and parses both
halves, anchoring the right half at the left result; the other branch
parses the whole string and uses it for both ends. -/
def parseRangePair (timeRange : List Char) (now : Int) : Except GoErr (Int × Int) :=
  if goContains timeRange (strL "/") then
    match goSplitSlash timeRange with
    | [p0, p1] =>
      match ParseTime p0 now goZeroTime with
      | .error e => .error (.invalidStartTime e)
      | .ok startT =>
        match ParseTime p1 now startT with
        | .error e => .error (.invalidEndTime e)
        | .ok endT => .ok (startT, endT)
    | _ => .error .invalidTimeRange
  else
    match ParseTime timeRange now goZeroTime with
    | .error e => .error e
    | .ok startT => .ok (startT, startT)

/-- Embeds ParseTimeRange (time_parse.go).  Go reads the reference
instant from the system clock at call time; the model takes it as the
parameter now. -/
def ParseTimeRange (timeRange : List Char) (now : Int) : Except GoErr (Int × Int) :=
  if timeRange = [] then .ok (0, 0)
  else
    match parseRangePair timeRange now with
    | .error e => .error e
    | .ok (startT, endT) =>
      if ¬endT = goZeroTime ∧ ¬startT = goZeroTime ∧ endT < startT then
        .error .endBeforeStart
      else .ok (unixSec startT, unixSec endT)

/-! ## The claims -/

/-- C9: ParseTime of the empty string never fails: it returns the zero
instant when the start anchor is the zero value and now otherwise. -/
theorem parseTime_empty (now startTime : Int) :
    ParseTime [] now startTime =
      .ok (if startTime = goZeroTime then goZeroTime else now) := by
  by_cases h : startTime = goZeroTime
  · simp [ParseTime, h]
  · simp [ParseTime, h]

/-- C10: a non-empty input consisting only of white space is not given
the empty-string resolution: the emptiness test runs before trimming, so
the input trims to nothing, falls through every recognizer of the
cascade, and fails with the invalid-time-format error. -/
theorem parseTime_whitespace_only (s : List Char) (now startTime : Int)
    (h1 : s ≠ []) (h2 : ∀ c ∈ s, isGoSpace c = true) :
    ParseTime s now startTime = .error .invalidTimeFormat := by
  have ht : goTrimSpace s = [] := by
    unfold goTrimSpace
    rw [List.dropWhile_eq_nil_iff.mpr h2]
    rfl
  unfold ParseTime
  rw [if_neg h1, ht]
  rfl

/-- Witness for C10 at the one-space input. -/
theorem parseTime_whitespace_only_witness :
    ParseTime (strL " ") 0 0 = .error .invalidTimeFormat :=
  parseTime_whitespace_only (strL " ") 0 0 (by decide) (by decide)

/-- C2 counterexample: ParseTime("10000000000") resolves to epoch second
10000000 (ten thousand million milliseconds), not to epoch second 10. -/
theorem parseTime_msBoundary_counterexample :
    ParseTime (strL "10000000000") 0 0 = .ok (goUnix 10000000 0) ∧
      unixSec (goUnix 10000000 0) ≠ 10 := by
  exact ⟨rfl, by decide⟩

/-- C2 (amended): ParseTime("9999999999") resolves to epoch seconds
9999999999 for every now and start, and ParseTime("10000000000")
resolves to epoch seconds 10000000, the input being treated as
10000000000 milliseconds. -/
theorem parseTime_msBoundary (now startTime : Int) :
    ParseTime (strL "9999999999") now startTime = .ok (goUnix 9999999999 0) ∧
    unixSec (goUnix 9999999999 0) = 9999999999 ∧
    ParseTime (strL "10000000000") now startTime = .ok (goUnix 10000000 0) ∧
    unixSec (goUnix 10000000 0) = 10000000 := by
  refine ⟨rfl, by decide, rfl, by decide⟩

/-- C4 counterexample: "-10000000000" has magnitude above the threshold,
yet it is interpreted as seconds (epoch second -10000000000), not as
milliseconds (which would give epoch second -10000000). -/
theorem parseTime_magnitude_counterexample :
    ParseTime (strL "-10000000000") 0 0 = .ok (goUnix (-10000000000) 0) ∧
      unixSec (goUnix (-10000000000) 0) = -10000000000 ∧
      (-10000000000 : Int) ≠ -10000000 := by
  exact ⟨rfl, by decide, by decide⟩

/-- C4 (amended): a bare integer accepted by the timestamp recognizer is
compared with the threshold as a signed value, not by magnitude: a value
strictly greater than 9999999999 is milliseconds since the epoch, split
by truncating division; every other value, in particular every negative
one, is seconds since the epoch. -/
theorem parseTime_unix_threshold (s : List Char) (now startTime n : Int)
    (h : parseInt64 (goTrimSpace s) = some n) :
    (n ≤ 9999999999 → ParseTime s now startTime = .ok (goUnix n 0)) ∧
    (9999999999 < n →
      ParseTime s now startTime =
        .ok (goUnix (Int.tdiv n 1000) (Int.tmod n 1000 * 1000000))) := by
  have hs : s ≠ [] := by
    intro he
    rw [he] at h
    exact Option.noConfusion (by simpa using h)
  unfold ParseTime
  rw [if_neg hs]
  simp only [h]
  unfold parseUnixTimestamp
  constructor
  · intro hle
    rw [if_neg (by omega)]
  · intro hgt
    rw [if_pos (by omega)]

/-- Witness for C4 at the counterexample input: a negative value of
large magnitude goes down the seconds branch. -/
theorem parseTime_unix_threshold_witness :
    ParseTime (strL "-10000000000") 0 0 = .ok (goUnix (-10000000000) 0) :=
  (parseTime_unix_threshold (strL "-10000000000") 0 0 (-10000000000)
    (by decide)).1 (by decide)

/-- C6: every string that contains a reserved keyword as a
case-insensitive substring is returned by convertCustomUnits exactly
unchanged; the keyword guard runs before any unit conversion. -/
theorem convertCustomUnits_keyword (s : List Char)
    (h : ∃ k ∈ reservedKeywords, goContains (goToLower s) k = true) :
    convertCustomUnits s = s := by
  obtain ⟨k, hk, hc⟩ := h
  unfold convertCustomUnits
  rw [if_pos (List.any_eq_true.mpr ⟨k, hk, hc⟩)]

/-- Witness for C6: a string with an upper-case keyword and a
numeric-looking unit phrase passes through unchanged. -/
theorem convertCustomUnits_keyword_witness :
    convertCustomUnits (strL "5 days until SUNDAY") = strL "5 days until SUNDAY" :=
  convertCustomUnits_keyword (strL "5 days until SUNDAY")
    ⟨strL "sunday", by decide, by decide⟩

/-- C3 counterexample: "1 day x 2 day" contains no reserved keyword, one
normalization pass gives "24h x 2 day", and a second pass converts the
surviving suffix again, giving "576h", so normalization is not
idempotent on keyword-free strings. -/
theorem convertCustomUnits_idem_counterexample :
    (∀ k ∈ reservedKeywords,
      goContains (goToLower (strL "1 day x 2 day")) k = false) ∧
    convertCustomUnits (strL "1 day x 2 day") = strL "24h x 2 day" ∧
    convertCustomUnits (convertCustomUnits (strL "1 day x 2 day")) = strL "576h" ∧
    convertCustomUnits (convertCustomUnits (strL "1 day x 2 day")) ≠
      convertCustomUnits (strL "1 day x 2 day") := by
  exact ⟨by decide, by decide, by decide, by decide⟩

/-- C3 (amended): unit normalization is idempotent on its fixed points:
whenever convertCustomUnits leaves a string unchanged, a second
application leaves it unchanged as well.  On general keyword-free input
a converted output can itself contain a convertible unit phrase carried
over from the suffix, so idempotence fails there. -/
theorem convertCustomUnits_idem_fixed (s : List Char)
    (h : convertCustomUnits s = s) :
    convertCustomUnits (convertCustomUnits s) = convertCustomUnits s := by
  rw [h]
  exact h

/-- Witness for C3 at an already-normalized duration literal. -/
theorem convertCustomUnits_idem_fixed_witness :
    convertCustomUnits (convertCustomUnits (strL "2h30m")) =
      convertCustomUnits (strL "2h30m") :=
  convertCustomUnits_idem_fixed (strL "2h30m") (by decide)

/-- C1 counterexample: a range whose left half is empty and whose right
half is the timestamp -62135596801 returns without error the pair
(-62135596800, -62135596801): the two values are not both zero and the
end value is strictly below the start value.  The empty left half
resolves to the zero instant, which disables the ordering check. -/
theorem parseTimeRange_invariant_counterexample :
    ParseTimeRange (strL "/-62135596801") (goUnix 1700000000 0) =
      .ok (-62135596800, -62135596801) ∧
    ¬((-62135596800 : Int) = 0 ∧ (-62135596801 : Int) = 0) ∧
    ¬((-62135596800 : Int) ≤ -62135596801) := by
  exact ⟨rfl, by decide, by decide⟩

/-- C1 (amended): when ParseTimeRange returns without error, either both
returned epoch values are zero (the empty-input case), or one of the two
resolved instants is the zero instant (whose epoch value is
unixSec goZeroTime = -62135596800), or end ≥ start. -/
theorem parseTimeRange_invariant (timeRange : List Char) (now a b : Int)
    (h : ParseTimeRange timeRange now = .ok (a, b)) :
    (a = 0 ∧ b = 0) ∨ a = unixSec goZeroTime ∨ b = unixSec goZeroTime ∨ a ≤ b := by
  unfold ParseTimeRange at h
  by_cases h0 : timeRange = []
  · rw [if_pos h0] at h
    injection h with h
    injection h with ha hb
    exact Or.inl ⟨ha.symm, hb.symm⟩
  · rw [if_neg h0] at h
    rcases hP : parseRangePair timeRange now with e | p
    · rw [hP] at h
      exact Except.noConfusion h
    · obtain ⟨s, e2⟩ := p
      rw [hP] at h
      dsimp only at h
      by_cases hc : ¬e2 = goZeroTime ∧ ¬s = goZeroTime ∧ e2 < s
      · rw [if_pos hc] at h
        exact Except.noConfusion h
      · rw [if_neg hc] at h
        injection h with h
        injection h with ha hb
        by_cases hz1 : s = goZeroTime
        · refine Or.inr (Or.inl ?_)
          rw [← ha, hz1]
        · by_cases hz2 : e2 = goZeroTime
          · refine Or.inr (Or.inr (Or.inl ?_))
            rw [← hb, hz2]
          · have hle : s ≤ e2 := by
              by_contra hlt
              exact hc ⟨hz2, hz1, lt_of_not_le hlt⟩
            refine Or.inr (Or.inr (Or.inr ?_))
            rw [← ha, ← hb]
            exact Int.ediv_le_ediv (by decide) hle

/-- Witness for C1 at a plain timestamp input, landing in the
end-at-least-start branch. -/
theorem parseTimeRange_invariant_witness :
    ((1416434697 : Int) = 0 ∧ (1416434697 : Int) = 0) ∨
      (1416434697 : Int) = unixSec goZeroTime ∨
      (1416434697 : Int) = unixSec goZeroTime ∨ (1416434697 : Int) ≤ 1416434697 :=
  parseTimeRange_invariant (strL "1416434697") 0 1416434697 1416434697 rfl

/-- C5 counterexample: the malformed unit phrase "xyz ago" carries an
" ago" suffix, and ParseTime fails on it with the duration-grammar
error, not with the invalid-time-format error of the final cascade
step. -/
theorem parseTime_malformed_unit_counterexample :
    ParseTime (strL "xyz ago") 0 0 = .error (.durationErr (strL "xyz")) ∧
      GoErr.durationErr (strL "xyz") ≠ .invalidTimeFormat := by
  exact ⟨rfl, by decide⟩

/-- A string that starts with a minus sign does not start with a plus
sign. -/
theorem startsWith_minus_not_plus (c : List Char)
    (h : goStartsWith c ['-'] = true) : goStartsWith c ['+'] = false := by
  cases c with
  | nil => exact absurd h (by decide)
  | cons x rest =>
    simp [goStartsWith] at h
    rw [h]
    simp [goStartsWith]

/-- When the trimmed lower-cased argument of parseRelativeTime is none
of the relative keywords, has no "last " start, and fails the duration
grammar, the duration-grammar error is returned. -/
theorem parseRelativeTime_durationErr (durationStr : List Char)
    (now startTime : Int) (isPositive : Bool) (d : List Char)
    (hd : d = goToLower (goTrimSpace durationStr))
    (hd1 : d ≠ strL "yesterday") (hd2 : d ≠ strL "last week")
    (hd3 : d ≠ strL "last month") (hd4 : d ≠ strL "last year")
    (hlast : goStartsWith d (strL "last ") = false)
    (hdur : goParseDuration (goRemoveSpaces d) = none) :
    parseRelativeTime durationStr now startTime isPositive =
      .error (.durationErr (goRemoveSpaces d)) := by
  unfold parseRelativeTime
  rw [← hd]
  rw [if_neg hd1, if_neg hd2, if_neg hd3, if_neg hd4]
  simp [hlast, hdur]

/-- C5 (amended): unit normalization never fails, so a malformed unit
phrase is rejected downstream; when the expression has no " ago" suffix
and its normalized form has no sign, the cascade falls through every
recognizer and the error is the invalid-time-format error of the final
step; when the expression carries an " ago" suffix, and likewise when
its normalized form carries a "+" or "-" prefix, the duration-grammar
error is returned instead and is distinguishable from the
invalid-time-format error. -/
theorem parseTime_malformed_unit_errors :
    (∀ (s : List Char) (now startTime : Int),
      s ≠ [] →
      parseInt64 (goTrimSpace s) = none →
      goStartsWith (goToLower (goTrimSpace s)) (strL "last ") = false →
      goStartsWith (goToLower (goTrimSpace s)) (strL "yesterday") = false →
      goContains (goTrimSpace s) (strL " ago") = false →
      goStartsWith (convertCustomUnits (goTrimSpace s)) (strL "+") = false →
      goStartsWith (convertCustomUnits (goTrimSpace s)) (strL "-") = false →
      goParseDuration (convertCustomUnits (goTrimSpace s)) = none →
      parseClock (convertCustomUnits (goTrimSpace s)) = none →
      parseDateYY (convertCustomUnits (goTrimSpace s)) = none →
      parseDateYYYY (convertCustomUnits (goTrimSpace s)) = none →
      parseDateTimeYY (convertCustomUnits (goTrimSpace s)) = none →
      parseDateTimeYYYY (convertCustomUnits (goTrimSpace s)) = none →
      parseRFC822 (convertCustomUnits (goTrimSpace s)) = none →
      ParseTime s now startTime = .error .invalidTimeFormat) ∧
    (∀ (s d : List Char) (now startTime : Int),
      s ≠ [] →
      parseInt64 (goTrimSpace s) = none →
      goStartsWith (goToLower (goTrimSpace s)) (strL "last ") = false →
      goStartsWith (goToLower (goTrimSpace s)) (strL "yesterday") = false →
      goContains (goTrimSpace s) (strL " ago") = true →
      d = goToLower (goTrimSpace (goJoinFields (convertCustomUnits
        (goReplaceOnce (goTrimSpace s) (strL " ago") [])))) →
      d ≠ strL "yesterday" → d ≠ strL "last week" → d ≠ strL "last month" →
      d ≠ strL "last year" →
      goStartsWith d (strL "last ") = false →
      goParseDuration (goRemoveSpaces d) = none →
      ParseTime s now startTime = .error (.durationErr (goRemoveSpaces d)) ∧
        GoErr.durationErr (goRemoveSpaces d) ≠ .invalidTimeFormat) ∧
    (∀ (s d : List Char) (now startTime : Int),
      s ≠ [] →
      parseInt64 (goTrimSpace s) = none →
      goStartsWith (goToLower (goTrimSpace s)) (strL "last ") = false →
      goStartsWith (goToLower (goTrimSpace s)) (strL "yesterday") = false →
      goContains (goTrimSpace s) (strL " ago") = false →
      (goStartsWith (convertCustomUnits (goTrimSpace s)) (strL "+") = true ∨
        goStartsWith (convertCustomUnits (goTrimSpace s)) (strL "-") = true) →
      d = goToLower (goTrimSpace ((convertCustomUnits (goTrimSpace s)).drop 1)) →
      d ≠ strL "yesterday" → d ≠ strL "last week" → d ≠ strL "last month" →
      d ≠ strL "last year" →
      goStartsWith d (strL "last ") = false →
      goParseDuration (goRemoveSpaces d) = none →
      ParseTime s now startTime = .error (.durationErr (goRemoveSpaces d)) ∧
        GoErr.durationErr (goRemoveSpaces d) ≠ .invalidTimeFormat) := by
  refine ⟨?_, ?_, ?_⟩
  · intro s now startTime h1 h2 h3 h4 h5 h6 h7 h8 h9 h10 h11 h12 h13 h14
    unfold ParseTime
    rw [if_neg h1]
    simp [h2, h3, h4, h5, h6, h7, h8, h9, h10, h11, h12, h13, h14]
  · intro s d now startTime h1 h2 h3 h4 h5 hd hd1 hd2 hd3 hd4 hlast hdur
    refine ⟨?_, fun hcon => GoErr.noConfusion hcon⟩
    have hPT : ParseTime s now startTime =
        parseRelativeTime (goJoinFields (convertCustomUnits
          (goReplaceOnce (goTrimSpace s) (strL " ago") []))) now startTime false := by
      unfold ParseTime
      rw [if_neg h1]
      simp [h2, h3, h4, h5]
    rw [hPT]
    exact parseRelativeTime_durationErr _ now startTime false d hd hd1 hd2 hd3 hd4 hlast hdur
  · intro s d now startTime h1 h2 h3 h4 h5 hsign hd hd1 hd2 hd3 hd4 hlast hdur
    refine ⟨?_, fun hcon => GoErr.noConfusion hcon⟩
    rcases hsign with hp | hm
    · have hPT : ParseTime s now startTime =
          parseRelativeTime ((convertCustomUnits (goTrimSpace s)).drop 1)
            now startTime true := by
        unfold ParseTime
        rw [if_neg h1]
        simp [h2, h3, h4, h5, hp]
      rw [hPT]
      exact parseRelativeTime_durationErr _ now startTime true d hd hd1 hd2 hd3 hd4 hlast hdur
    · have hp2 : goStartsWith (convertCustomUnits (goTrimSpace s)) (strL "+") = false :=
        startsWith_minus_not_plus _ hm
      have hPT : ParseTime s now startTime =
          parseRelativeTime ((convertCustomUnits (goTrimSpace s)).drop 1)
            now startTime false := by
        unfold ParseTime
        rw [if_neg h1]
        simp [h2, h3, h4, h5, hp2, hm]
      rw [hPT]
      exact parseRelativeTime_durationErr _ now startTime false d hd hd1 hd2 hd3 hd4 hlast hdur

/-- Witness for C5: the signless malformed phrase "5 parsecs" reaches
the final invalid-time-format error, while "qq2 ago", "+xy" and "-qz"
fail with the duration-grammar error for the stripped remainder. -/
theorem parseTime_malformed_unit_errors_witness :
    ParseTime (strL "5 parsecs") 0 0 = .error .invalidTimeFormat ∧
      ParseTime (strL "qq2 ago") 0 0 = .error (.durationErr (strL "qq2")) ∧
      ParseTime (strL "+xy") 0 0 = .error (.durationErr (strL "xy")) ∧
      ParseTime (strL "-qz") 0 0 = .error (.durationErr (strL "qz")) := by
  refine ⟨?_, ?_, ?_, ?_⟩
  · exact parseTime_malformed_unit_errors.1 (strL "5 parsecs") 0 0
      (by decide) (by decide) (by decide) (by decide) (by decide) (by decide)
      (by decide) (by decide) (by decide) (by decide) (by decide) (by decide)
      (by decide) (by decide)
  · exact (parseTime_malformed_unit_errors.2.1 (strL "qq2 ago") (strL "qq2") 0 0
      (by decide) (by decide) (by decide) (by decide) (by decide) (by decide)
      (by decide) (by decide) (by decide) (by decide) (by decide) (by decide)).1
  · exact (parseTime_malformed_unit_errors.2.2 (strL "+xy") (strL "xy") 0 0
      (by decide) (by decide) (by decide) (by decide) (by decide)
      (Or.inl (by decide)) (by decide) (by decide) (by decide) (by decide)
      (by decide) (by decide) (by decide)).1
  · exact (parseTime_malformed_unit_errors.2.2 (strL "-qz") (strL "qz") 0 0
      (by decide) (by decide) (by decide) (by decide) (by decide)
      (Or.inr (by decide)) (by decide) (by decide) (by decide) (by decide)
      (by decide) (by decide) (by decide)).1

/-- C8: in a slashed range the right half is parsed with its start
anchor set to the left half's resolved instant, so a leading plus on the
right is anchored to the left result: for any reference instant now
whose two-hours-ago point is not the zero instant, the range made of
"2h", a slash and "+30m" succeeds with start = now - 2h and
end = start + 30m, which equals now - 1.5h. -/
theorem parseTimeRange_plus_anchor (now : Int)
    (h : ¬ now - 7200 * nsPerSec = goZeroTime) :
    ParseTimeRange (strL "2h/+30m") now =
      .ok (unixSec (now - 7200 * nsPerSec),
        unixSec (now - 7200 * nsPerSec + 1800 * nsPerSec)) ∧
    now - 7200 * nsPerSec + 1800 * nsPerSec = now - 5400 * nsPerSec := by
  have e1 : ParseTime (strL "2h") now goZeroTime = .ok (now - 7200 * nsPerSec) := rfl
  have e2 : ParseTime (strL "+30m") now (now - 7200 * nsPerSec) =
      if now - 7200 * nsPerSec = goZeroTime then .ok (now + 1800 * nsPerSec)
      else .ok (now - 7200 * nsPerSec + 1800 * nsPerSec) := rfl
  have hpair : parseRangePair (strL "2h/+30m") now =
      .ok (now - 7200 * nsPerSec, now - 7200 * nsPerSec + 1800 * nsPerSec) := by
    unfold parseRangePair
    rw [if_pos (by decide : goContains (strL "2h/+30m") (strL "/") = true)]
    rw [show goSplitSlash (strL "2h/+30m") = [strL "2h", strL "+30m"] from rfl]
    dsimp only
    rw [e1]
    dsimp only
    rw [e2, if_neg h]
  refine ⟨?_, by ring⟩
  unfold ParseTimeRange
  rw [if_neg (by decide : ¬ strL "2h/+30m" = [])]
  rw [hpair]
  dsimp only
  rw [if_neg ?_]
  · intro hcon
    rcases hcon with ⟨_, _, hlt⟩
    simp only [nsPerSec] at hlt
    omega

/-- Witness for C8 at a concrete reference instant. -/
theorem parseTimeRange_plus_anchor_witness :
    ParseTimeRange (strL "2h/+30m") (goUnix 1700000000 0) =
      .ok (1699992800, 1699994600) :=
  (parseTimeRange_plus_anchor (goUnix 1700000000 0) (by decide)).1

/-- The lower-case English weekday names in Go's ordinal order
(Sunday = 0). -/
def weekdayName : Fin 7 → List Char
  | 0 => strL "sunday"
  | 1 => strL "monday"
  | 2 => strL "tuesday"
  | 3 => strL "wednesday"
  | 4 => strL "thursday"
  | 5 => strL "friday"
  | 6 => strL "saturday"

theorem parseLastWeekday_eq (durationStr : List Char) (now i : Int)
    (h : parseWeekday (goTrimLeading durationStr (strL "last ")) = .ok i) :
    parseLastWeekday durationStr now =
      .ok (getMidnight (now - (if goWeekday now - i ≤ 0 then goWeekday now - i + 7
        else goWeekday now - i) * nsPerDay)) := by
  unfold parseLastWeekday
  dsimp only
  rw [h]
  dsimp only
  rw [goAddDate_days]
  rw [show now + -(if goWeekday now - i ≤ 0 then goWeekday now - i + 7
    else goWeekday now - i) * nsPerDay =
    now - (if goWeekday now - i ≤ 0 then goWeekday now - i + 7
    else goWeekday now - i) * nsPerDay from by ring]

theorem parseTime_last_routes (w : Fin 7) (now startTime : Int) :
    ParseTime (strL "last " ++ weekdayName w) now startTime =
      parseLastWeekday (strL "last " ++ weekdayName w) now := by
  fin_cases w <;> rfl

/-- C7: for every reference instant and every recognized lower-case
weekday name, parsing "last " followed by the name yields midnight of
the day daysAgo days before now, where daysAgo is now's weekday ordinal
minus the name's ordinal, wrapped to +7 when the difference is zero or
negative; in particular, when the name is now's own weekday the result
is exactly 7 days before now at midnight, never the current day. -/
theorem parseTime_last_weekday (w : Fin 7) (now startTime : Int) :
    (ParseTime (strL "last " ++ weekdayName w) now startTime =
      .ok (getMidnight (now - (if goWeekday now - (w.val : Int) ≤ 0
        then goWeekday now - (w.val : Int) + 7
        else goWeekday now - (w.val : Int)) * nsPerDay))) ∧
    (goWeekday now = (w.val : Int) →
      ParseTime (strL "last " ++ weekdayName w) now startTime =
        .ok (getMidnight (now - 7 * nsPerDay))) := by
  have hw : parseWeekday (goTrimLeading (strL "last " ++ weekdayName w)
      (strL "last ")) = .ok (w.val : Int) := by
    fin_cases w <;> rfl
  have h1 := parseLastWeekday_eq (strL "last " ++ weekdayName w) now (w.val : Int) hw
  have hroute := parseTime_last_routes w now startTime
  refine ⟨hroute.trans h1, fun hEq => ?_⟩
  rw [hroute, h1, hEq]
  norm_num

/-- Witness for C7: at a Monday reference instant (epoch day 4),
"last monday" resolves to midnight 7 days earlier. -/
theorem parseTime_last_weekday_witness :
    ParseTime (strL "last monday") (goUnix 345600 0) 0 =
      .ok (getMidnight (goUnix 345600 0 - 7 * nsPerDay)) :=
  (parseTime_last_weekday 1 (goUnix 345600 0) 0).2 (by decide)

end FriendlyTime
